import Mathlib

/-!
Verification of the pricing engines of the Hilton-Calculator repository.

The two source files are React components; their pricing logic is pure
arithmetic over JavaScript numbers.  We embed that arithmetic over `ℚ`
(exact decimal arithmetic; the formulas use only +, *, min, comparisons
and one rounding step, all of which the spec states in exact decimal
terms).  JavaScript `Math.round(x*100)/100` is `⌊100x + 1/2⌋ / 100`,
matching JS round-half-toward-+∞ semantics, including on negatives.

Date handling is abstracted: `new Date(checkIn).getMonth()` becomes an
integer `month` parameter and
`Math.ceil((checkOut - checkIn) / msPerDay)` becomes an integer `nights`
parameter (the `Math.ceil` result is an integer).  The hotel `points`
field is a string run through `Number(points) || 0`; we model the parse
result as `Option ℚ` (`none` for NaN) and `getD 0` for the `|| 0`.

The reference data tables (`carRentals`, `expandedHiltonProperties`) are
not part of the given source (only their TypeScript interfaces are), so
the models are parametric in the table contents.
-/

namespace HiltonCalc

/-- `Math.round (q * 100) / 100`: round to 2 decimals, half toward +∞. -/
def round2 (q : ℚ) : ℚ := (⌊q * 100 + 1/2⌋ : ℚ) / 100

/-- A row of the `carRentals` reference table
(interface `CarRental` in the data module). -/
structure CarRental where
  company : String
  basePrice : ℚ
  economy : ℚ
  midsize : ℚ
  luxury : ℚ
  suv : ℚ
deriving DecidableEq

/-- The `{ cashPrice, pointsSavings }` pair reported via `onCostUpdate`
(the optional `details` breakdown is presentational and not modelled). -/
structure CostResult where
  cashPrice : ℚ
  pointsSavings : ℚ
deriving DecidableEq

/-- `rental.categories[details.category as keyof ...]`: the category
string indexes one of the four fixed keys; any other string yields
`undefined` (`none`). -/
def categoryLookup (r : CarRental) (cat : String) : Option ℚ :=
  if cat = "economy" then some r.economy
  else if cat = "midsize" then some r.midsize
  else if cat = "luxury" then some r.luxury
  else if cat = "suv" then some r.suv
  else none

/-- `rental.categories[...] || 1`: `undefined` and the falsy value `0`
both fall back to `1`. -/
def categoryMultiplier (r : CarRental) (cat : String) : ℚ :=
  match categoryLookup r cat with
  | none => 1
  | some m => if m = 0 then 1 else m

/-- Lines 23-50 of `CarRentalSelector.tsx`: the unrounded `cashPrice`
of the success branch of the `costs` useMemo. -/
def carRawCashPrice (rental : CarRental) (category : String) (days : ℚ) : ℚ :=
  let dailyRate := rental.basePrice * categoryMultiplier rental category
  let baseRental := dailyRate * days
  let insuranceFee := 15 * days
  let airportFee : ℚ := 25
  let vehicleLicenseFee : ℚ := 8.50
  let facilityFee : ℚ := 12
  let totalFees := insuranceFee + airportFee + vehicleLicenseFee + facilityFee
  let discount : ℚ := if 7 ≤ days then 0.15 else if 3 ≤ days then 0.10 else 0
  let discountedBase := baseRental * (1 - discount)
  let subtotal := discountedBase + totalFees
  let salesTax := subtotal * 0.0825
  let rentalTax := baseRental * 0.115
  subtotal + (salesTax + rentalTax)

/-- The `costs` useMemo of `CarRentalSelector.tsx` (lines 17-63):
guards, company lookup, pricing, points savings, rounding. -/
def carRentalCosts (table : List CarRental) (company category : String)
    (days points : ℚ) : CostResult :=
  if company = "" ∨ days ≤ 0 then ⟨0, 0⟩
  else
    match table.find? (fun r => r.company == company) with
    | none => ⟨0, 0⟩
    | some rental =>
      let cashPrice := carRawCashPrice rental category days
      let pointsSavings := min (points * 0.008) (cashPrice * 0.5)
      ⟨round2 cashPrice, round2 pointsSavings⟩

/-- A row of the `expandedHiltonProperties` reference table, restricted
to the fields the pricing engine reads. -/
structure HotelProperty where
  id : String
  basePrice : ℚ
  city : String
  amenities : List String
deriving DecidableEq

/-- The major-city allowlist of `HotelSelector` (line 269). -/
def majorCities : List String :=
  ["New York", "Los Angeles", "Chicago", "Miami", "Las Vegas"]

/-- Lines 252-260: seasonal multiplier from the 0-indexed check-in
month (`SEASONAL_RATES`: peak 1.4, shoulder 1.2, offPeak 0.8). -/
def seasonalRate (month : ℤ) : ℚ :=
  if 5 ≤ month ∧ month ≤ 7 then 1.4
  else if 2 ≤ month ∧ month ≤ 4 then 1.2
  else if 11 ≤ month ∨ month ≤ 1 then 0.8
  else 1

/-- Lines 262-264: length-of-stay discount multiplier. -/
def lengthDiscount (nights : ℤ) : ℚ :=
  if 7 ≤ nights then 0.85
  else if 4 ≤ nights then 0.9
  else if 2 ≤ nights then 0.95
  else 1

/-- `calculateCashPrice` of `HotelSelector` (lines 246-287), after the
date arithmetic has produced `month` and `nights`.  The
`selectedProperty` closed over by the source function is passed
explicitly. -/
def calculateCashPrice (prop : HotelProperty) (month nights : ℤ)
    (rooms : ℚ) : ℚ :=
  if nights ≤ 0 then 0
  else
    let roomCost := prop.basePrice * seasonalRate month *
      lengthDiscount nights * (nights : ℚ) * rooms
    let isMajorCity := prop.city ∈ majorCities
    let hasResortFee := "Pool" ∈ prop.amenities ∨ "Spa Services" ∈ prop.amenities
    let fees := ((if hasResortFee then (35 : ℚ) else 0) + 10 + 15 +
      (if isMajorCity then (20 : ℚ) else 0)) * (nights : ℚ) * rooms
    let roomTax := roomCost * 0.145
    let occupancyTax := roomCost * 0.035
    let cityTax := if isMajorCity then roomCost * 0.02 else 0
    let tourismLevy := roomCost * 0.01
    roomCost + fees + roomTax + occupancyTax + cityTax + tourismLevy

/-- `calculatePointsSavings` (lines 289-292): `Number(points) || 0`
modelled by `Option.getD 0`, then the capped conversion. -/
def calculatePointsSavings (points : Option ℚ) (cashPrice : ℚ) : ℚ :=
  let pointsNum := points.getD 0
  min (pointsNum * 0.005) (cashPrice * 0.8)

/-- The hotel `useEffect` (lines 294-307): with no selected property the
reported cost is zero; otherwise price then points savings. -/
def hotelCosts (prop? : Option HotelProperty) (month nights : ℤ)
    (rooms : ℚ) (points : Option ℚ) : CostResult :=
  match prop? with
  | none => ⟨0, 0⟩
  | some prop =>
    let cashPrice := calculateCashPrice prop month nights rooms
    ⟨cashPrice, calculatePointsSavings points cashPrice⟩

/-- The car-rental reference formula as the specification words it:
`dailyRate = basePrice * categoryMultiplier`, fees
`15*days + 25 + 8.50 + 12`, tiered discount on the base rental only,
sales tax on the subtotal plus rental tax on the undiscounted base. -/
def specCarRaw (basePrice cm days : ℚ) : ℚ :=
  let dailyRate := basePrice * cm
  let baseRental := dailyRate * days
  let fees := 15 * days + 25 + 8.50 + 12
  let discount : ℚ := if 7 ≤ days then 0.15 else if 3 ≤ days then 0.10 else 0
  let subtotal := baseRental * (1 - discount) + fees
  let taxes := subtotal * 0.0825 + baseRental * 0.115
  subtotal + taxes

/-- The hotel reference formula as the specification words it:
`roomCost + fees + taxes` with fees per night per room and every tax
computed on `roomCost` only. -/
def specHotelCashPrice (prop : HotelProperty) (month nights : ℤ)
    (rooms : ℚ) : ℚ :=
  let roomCost := prop.basePrice * seasonalRate month *
    lengthDiscount nights * (nights : ℚ) * rooms
  let fees := (10 + 15 +
    (if "Pool" ∈ prop.amenities ∨ "Spa Services" ∈ prop.amenities then (35 : ℚ) else 0) +
    (if prop.city ∈ majorCities then (20 : ℚ) else 0)) * (nights : ℚ) * rooms
  let taxes := roomCost * 0.145 + roomCost * 0.035 + roomCost * 0.01 +
    (if prop.city ∈ majorCities then roomCost * 0.02 else 0)
  roomCost + fees + taxes

/-- `round2` overshoots its argument by at most half a cent. -/
lemma round2_le_add_half_cent (q : ℚ) : round2 q ≤ q + 1 / 200 := by
  have h := Int.floor_le (q * 100 + 1 / 2)
  simp only [round2]
  linarith

/-- `round2` undershoots its argument by less than half a cent. -/
lemma sub_half_cent_lt_round2 (q : ℚ) : q - 1 / 200 < round2 q := by
  have h := Int.lt_floor_add_one (q * 100 + 1 / 2)
  simp only [round2]
  linarith

/-- `round2` preserves nonnegativity. -/
lemma round2_nonneg {q : ℚ} (h : 0 ≤ q) : 0 ≤ round2 q := by
  have h2 : (0 : ℤ) ≤ ⌊q * 100 + 1 / 2⌋ := Int.le_floor.2 (by push_cast; linarith)
  simp only [round2]
  have h3 : (0 : ℚ) ≤ (⌊q * 100 + 1 / 2⌋ : ℚ) := by exact_mod_cast h2
  linarith

/-- With nonnegative table multipliers the effective category multiplier
is nonnegative (the `|| 1` fallback is 1). -/
lemma categoryMultiplier_nonneg {r : CarRental} (cat : String)
    (he : 0 ≤ r.economy) (hm : 0 ≤ r.midsize) (hl : 0 ≤ r.luxury)
    (hs : 0 ≤ r.suv) : 0 ≤ categoryMultiplier r cat := by
  have hval : ∀ m, categoryLookup r cat = some m → 0 ≤ m := by
    intro m hm2
    simp only [categoryLookup] at hm2
    split_ifs at hm2 <;> simp_all
  unfold categoryMultiplier
  cases hlk : categoryLookup r cat with
  | none => norm_num
  | some m =>
    show (0 : ℚ) ≤ if m = 0 then 1 else m
    split_ifs
    · norm_num
    · exact hval m hlk

/-- The raw car-rental cash price is nonnegative for a positive rental
length and nonnegative base price and multiplier. -/
lemma carRawCashPrice_nonneg {rental : CarRental} (category : String)
    {days : ℚ} (hd : 0 < days) (hbp : 0 ≤ rental.basePrice)
    (hcm : 0 ≤ categoryMultiplier rental category) :
    0 ≤ carRawCashPrice rental category days := by
  have hbr : 0 ≤ rental.basePrice * categoryMultiplier rental category * days :=
    mul_nonneg (mul_nonneg hbp hcm) hd.le
  simp only [carRawCashPrice]
  split_ifs <;> nlinarith [hbr, hd]

/-- Every seasonal multiplier is nonnegative. -/
lemma seasonalRate_nonneg (m : ℤ) : 0 ≤ seasonalRate m := by
  simp only [seasonalRate]
  split_ifs <;> norm_num

/-- Every length multiplier is nonnegative. -/
lemma lengthDiscount_nonneg (n : ℤ) : 0 ≤ lengthDiscount n := by
  simp only [lengthDiscount]
  split_ifs <;> norm_num

/-- The hotel cash price is nonnegative whenever the base price and the
room count are. -/
lemma calculateCashPrice_nonneg (prop : HotelProperty) (month nights : ℤ)
    (rooms : ℚ) (hbp : 0 ≤ prop.basePrice) (hr : 0 ≤ rooms) :
    0 ≤ calculateCashPrice prop month nights rooms := by
  by_cases hn : nights ≤ 0
  · simp [calculateCashPrice, hn]
  · simp only [calculateCashPrice, if_neg hn]
    have hnq : (0 : ℚ) ≤ (nights : ℚ) := by
      exact_mod_cast (by omega : (0 : ℤ) ≤ nights)
    have hRC : 0 ≤ prop.basePrice * seasonalRate month *
        lengthDiscount nights * (nights : ℚ) * rooms :=
      mul_nonneg (mul_nonneg (mul_nonneg
        (mul_nonneg hbp (seasonalRate_nonneg month))
        (lengthDiscount_nonneg nights)) hnq) hr
    have hnr : 0 ≤ (nights : ℚ) * rooms := mul_nonneg hnq hr
    split_ifs <;> nlinarith [hRC, hnr]

/-- A sample reference-table row used for concrete instances. -/
def hertz : CarRental := ⟨"Hertz", 50, 1, 1.3, 2, 1.6⟩

/-- A sample reference-table row whose base price is chosen so that the
raw cash price of a 1-day rental lands exactly on 100.01
(an odd number of cents). -/
def acme : CarRental := ⟨"Acme", 27615 / 958, 1, 1, 1, 1⟩

/-- A sample property in no major city and with no resort amenity. -/
def springfield : HotelProperty := ⟨"p1", 100, "Springfield", ["WiFi"]⟩

/-- C2: for every selected property and parameters yielding `nights > 0`,
the hotel engine's `cashPrice` equals, exactly and with no rounding, the
reference formula `roomCost + fees + taxes` with per-night-per-room fees
and every tax computed on `roomCost` only. -/
theorem hotel_cash_price_matches_spec (prop : HotelProperty)
    (month nights : ℤ) (rooms : ℚ) (points : Option ℚ) (h : 0 < nights) :
    (hotelCosts (some prop) month nights rooms points).cashPrice
      = specHotelCashPrice prop month nights rooms := by
  simp only [hotelCosts, calculateCashPrice, specHotelCashPrice,
    if_neg (not_le.2 h)]
  split_ifs <;> ring

theorem hotel_cash_price_matches_spec_witness :
    (0 : ℤ) < 3 ∧
    (hotelCosts (some springfield) 5 3 2 none).cashPrice
      = specHotelCashPrice springfield 5 3 2 :=
  ⟨by norm_num,
   hotel_cash_price_matches_spec springfield 5 3 2 none
     (by norm_num)⟩

/-- C5: for every valid hotel input (property selected, `nights > 0`,
nonnegative parsed points balance), the returned `pointsSavings` is at
most `cashPrice * 0.8` and at most `points * 0.005`. -/
theorem hotel_points_cap (prop : HotelProperty) (month nights : ℤ)
    (rooms p : ℚ) (hn : 0 < nights) (hp : 0 ≤ p) :
    (hotelCosts (some prop) month nights rooms (some p)).pointsSavings
      ≤ (hotelCosts (some prop) month nights rooms (some p)).cashPrice * 0.8 ∧
    (hotelCosts (some prop) month nights rooms (some p)).pointsSavings
      ≤ p * 0.005 := by
  simp only [hotelCosts, calculatePointsSavings, Option.getD]
  exact ⟨min_le_right _ _, min_le_left _ _⟩

theorem hotel_points_cap_witness :
    (0 : ℤ) < 2 ∧ (0 : ℚ) ≤ 40000 ∧
    ((hotelCosts (some springfield) 5 2 1
        (some 40000)).pointsSavings
      ≤ (hotelCosts (some springfield) 5 2 1
          (some 40000)).cashPrice * 0.8 ∧
    (hotelCosts (some springfield) 5 2 1
        (some 40000)).pointsSavings ≤ 40000 * 0.005) :=
  ⟨by norm_num, by norm_num,
   hotel_points_cap springfield 5 2 1 40000
     (by norm_num) (by norm_num)⟩

/-- C7: the hotel seasonal multiplier is exactly 1.4 for check-in months
5-7, 1.2 for months 2-4, 0.8 for months 11, 0, 1, and 1.0 for the
unnamed standard-season months 8-10. -/
theorem seasonal_multiplier_by_month (m : ℤ) :
    ((m = 5 ∨ m = 6 ∨ m = 7) → seasonalRate m = 1.4) ∧
    ((m = 2 ∨ m = 3 ∨ m = 4) → seasonalRate m = 1.2) ∧
    ((m = 11 ∨ m = 0 ∨ m = 1) → seasonalRate m = 0.8) ∧
    ((m = 8 ∨ m = 9 ∨ m = 10) → seasonalRate m = 1) := by
  refine ⟨?_, ?_, ?_, ?_⟩ <;> rintro (rfl | rfl | rfl) <;>
    norm_num [seasonalRate]

theorem seasonal_multiplier_by_month_witness :
    ((5 : ℤ) = 5 ∨ (5 : ℤ) = 6 ∨ (5 : ℤ) = 7) ∧ seasonalRate 5 = 1.4 :=
  ⟨Or.inl rfl, (seasonal_multiplier_by_month 5).1 (Or.inl rfl)⟩

/-- C8: for every night count `n > 0` the hotel length multiplier is
0.85 for `n ≥ 7`, 0.90 for `4 ≤ n < 7`, 0.95 for `2 ≤ n < 4` and 1.0
for `n = 1`; the boundaries 2, 4, 7 select 0.95, 0.90, 0.85. -/
theorem length_discount_tiers (n : ℤ) (hn : 0 < n) :
    ((7 ≤ n → lengthDiscount n = 0.85) ∧
     (4 ≤ n ∧ n < 7 → lengthDiscount n = 0.9) ∧
     (2 ≤ n ∧ n < 4 → lengthDiscount n = 0.95) ∧
     (n = 1 → lengthDiscount n = 1)) ∧
    lengthDiscount 2 = 0.95 ∧ lengthDiscount 4 = 0.9 ∧
    lengthDiscount 7 = 0.85 := by
  refine ⟨⟨?_, ?_, ?_, ?_⟩, ?_, ?_, ?_⟩
  · intro h
    simp only [lengthDiscount, if_pos h]
  · rintro ⟨h1, h2⟩
    simp only [lengthDiscount, if_neg (by omega : ¬ (7:ℤ) ≤ n), if_pos h1]
  · rintro ⟨h1, h2⟩
    simp only [lengthDiscount, if_neg (by omega : ¬ (7:ℤ) ≤ n),
      if_neg (by omega : ¬ (4:ℤ) ≤ n), if_pos h1]
  · rintro rfl
    norm_num [lengthDiscount]
  · norm_num [lengthDiscount]
  · norm_num [lengthDiscount]
  · norm_num [lengthDiscount]

theorem length_discount_tiers_witness :
    (0 : ℤ) < 2 ∧ lengthDiscount 2 = 0.95 :=
  ⟨by norm_num, (length_discount_tiers 2 (by norm_num)).2.1⟩

/-- C6: zero or negative days/nights, an empty or unknown company, or no
selected property, all yield `cashPrice = 0` and `pointsSavings = 0`
(the hotel nights-case needs a nonnegative parsed points balance). -/
theorem invalid_input_zero_cost :
    (∀ (table : List CarRental) (company category : String) (days points : ℚ),
        days ≤ 0 → carRentalCosts table company category days points = ⟨0, 0⟩) ∧
    (∀ (table : List CarRental) (category : String) (days points : ℚ),
        carRentalCosts table "" category days points = ⟨0, 0⟩) ∧
    (∀ (table : List CarRental) (company category : String) (days points : ℚ),
        table.find? (fun r => r.company == company) = none →
        carRentalCosts table company category days points = ⟨0, 0⟩) ∧
    (∀ (month nights : ℤ) (rooms : ℚ) (points : Option ℚ),
        hotelCosts none month nights rooms points = ⟨0, 0⟩) ∧
    (∀ (prop : HotelProperty) (month nights : ℤ) (rooms : ℚ) (points : Option ℚ),
        nights ≤ 0 → 0 ≤ points.getD 0 →
        hotelCosts (some prop) month nights rooms points = ⟨0, 0⟩) := by
  refine ⟨?_, ?_, ?_, ?_, ?_⟩
  · intro table company category days points hd
    simp only [carRentalCosts, if_pos (Or.inr hd)]
  · intro table category days points
    simp [carRentalCosts]
  · intro table company category days points hfind
    by_cases hg : company = "" ∨ days ≤ 0
    · simp only [carRentalCosts, if_pos hg]
    · simp only [carRentalCosts, if_neg hg, hfind]
  · intro month nights rooms points
    rfl
  · intro prop month nights rooms points hn hp
    simp only [hotelCosts, calculateCashPrice, calculatePointsSavings,
      if_pos hn, CostResult.mk.injEq]
    refine ⟨trivial, ?_⟩
    rw [zero_mul]
    exact min_eq_right (mul_nonneg hp (by norm_num))

theorem invalid_input_zero_cost_witness :
    (0 : ℚ) ≤ 0 ∧
    carRentalCosts [hertz] "Hertz" "economy" 0 5000
      = ⟨0, 0⟩ :=
  ⟨le_refl 0,
   invalid_input_zero_cost.1 [hertz] "Hertz" "economy"
     0 5000 (le_refl 0)⟩

/-- C10: neither engine clamps `pointsSavings` at zero: with a positive
cash price and a negative points balance both engines return a strictly
negative `pointsSavings`, so the displayed final cost
`cashPrice - pointsSavings` exceeds `cashPrice`. -/
theorem negative_points_negative_savings :
    0 < (carRentalCosts [hertz] "Hertz" "economy"
          1 (-1000)).cashPrice ∧
    (carRentalCosts [hertz] "Hertz" "economy"
          1 (-1000)).pointsSavings < 0 ∧
    (carRentalCosts [hertz] "Hertz" "economy"
          1 (-1000)).cashPrice <
      (carRentalCosts [hertz] "Hertz" "economy"
          1 (-1000)).cashPrice -
        (carRentalCosts [hertz] "Hertz" "economy"
          1 (-1000)).pointsSavings ∧
    0 < (hotelCosts (some springfield) 8 1 1
          (some (-1000))).cashPrice ∧
    (hotelCosts (some springfield) 8 1 1
          (some (-1000))).pointsSavings < 0 ∧
    (hotelCosts (some springfield) 8 1 1
          (some (-1000))).cashPrice <
      (hotelCosts (some springfield) 8 1 1
          (some (-1000))).cashPrice -
        (hotelCosts (some springfield) 8 1 1
          (some (-1000))).pointsSavings := by
  have hcar : carRentalCosts [hertz] "Hertz" "economy"
      1 (-1000) = ⟨125.37, -8⟩ := by
    simp only [carRentalCosts, carRawCashPrice, categoryMultiplier,
      categoryLookup, List.find?, hertz, String.reduceEq, String.reduceBEq,
      round2, CostResult.mk.injEq]
    norm_num [min_def, Int.floor_eq_iff]
  have hhot : hotelCosts (some springfield) 8 1 1
      (some (-1000)) = ⟨144, -5⟩ := by
    simp only [hotelCosts, calculateCashPrice, calculatePointsSavings,
      seasonalRate, lengthDiscount, majorCities, springfield, Option.getD,
      List.mem_cons, List.not_mem_nil, String.reduceEq, or_self, or_false,
      false_or, CostResult.mk.injEq]
    norm_num [min_def]
  rw [hcar, hhot]
  norm_num

/-- C1: whenever the company is found in the reference table and
`days > 0` (and, as in every sensible table, the looked-up category
multiplier is not the falsy value 0 that `|| 1` would override), the
returned `cashPrice` is the reference formula rounded to 2 decimals;
in particular a 7-day rental at multiplier 1 and base price `P` matches
`5.95P + 150.5 + (5.95P + 150.5)*0.0825 + 7P*0.115` to 2 decimals. -/
theorem car_cash_price_matches_spec :
    (∀ (table : List CarRental) (company category : String) (days points : ℚ)
        (rental : CarRental),
        company ≠ "" → 0 < days →
        table.find? (fun r => r.company == company) = some rental →
        categoryLookup rental category ≠ some 0 →
        (carRentalCosts table company category days points).cashPrice
          = round2 (specCarRaw rental.basePrice
              ((categoryLookup rental category).getD 1) days)) ∧
    (∀ P : ℚ, round2 (specCarRaw P 1 7)
        = round2 (5.95 * P + 150.5 + (5.95 * P + 150.5) * 0.0825
            + 7 * P * 0.115)) := by
  constructor
  · intro table company category days points rental hc hd hfind hcat
    have hcm : categoryMultiplier rental category
        = (categoryLookup rental category).getD 1 := by
      unfold categoryMultiplier
      cases hl : categoryLookup rental category with
      | none => rfl
      | some m =>
        have hm : m ≠ 0 := by
          intro h
          exact hcat (by rw [hl, h])
        simp [hm]
    have hg : ¬ (company = "" ∨ days ≤ 0) := by
      push_neg
      exact ⟨hc, hd⟩
    simp only [carRentalCosts, if_neg hg, hfind]
    simp only [carRawCashPrice, specCarRaw, hcm]
  · intro P
    congr 1
    simp only [specCarRaw]
    norm_num
    ring

theorem car_cash_price_matches_spec_witness :
    ("Hertz" ≠ "") ∧ (0 : ℚ) < 3 ∧
    (List.find? (fun r => r.company == "Hertz")
        [hertz] = some hertz) ∧
    categoryLookup hertz "economy" ≠ some 0 ∧
    (carRentalCosts [hertz] "Hertz" "economy" 3 0).cashPrice
      = round2 (specCarRaw 50
          ((categoryLookup hertz "economy").getD 1) 3) :=
  ⟨by decide, by norm_num, by simp [List.find?, hertz], by norm_num [categoryLookup, hertz],
   car_cash_price_matches_spec.1 [hertz] "Hertz"
     "economy" 3 0 hertz (by decide) (by norm_num)
     (by simp [List.find?, hertz]) (by norm_num [categoryLookup, hertz])⟩

/-- C3 counterexample: the claim that `cashPrice >= 0` even for negative
quantities fails — a negative room count drives the hotel cash price
strictly below zero (here to -144). -/
theorem negative_rooms_negative_cash_price :
    (hotelCosts (some springfield) 8 1 (-1) (some 0)).cashPrice < 0 := by
  simp only [hotelCosts, calculateCashPrice, seasonalRate, lengthDiscount,
    majorCities, springfield, List.mem_cons, List.not_mem_nil, String.reduceEq,
    or_self, or_false, false_or]
  norm_num

/-- C3 (amended): `cashPrice ≥ 0` for every input whose reference-table
prices and multipliers are nonnegative and, for the hotel engine, whose
room count is nonnegative; a negative room count can produce a negative
hotel cash price. -/
theorem cash_price_nonneg_amended :
    (∀ (table : List CarRental) (company category : String) (days points : ℚ),
        (∀ r ∈ table, 0 ≤ r.basePrice ∧ 0 ≤ r.economy ∧ 0 ≤ r.midsize ∧
          0 ≤ r.luxury ∧ 0 ≤ r.suv) →
        0 ≤ (carRentalCosts table company category days points).cashPrice) ∧
    (∀ (prop? : Option HotelProperty) (month nights : ℤ) (rooms : ℚ)
        (points : Option ℚ),
        (∀ p, prop? = some p → 0 ≤ p.basePrice) → 0 ≤ rooms →
        0 ≤ (hotelCosts prop? month nights rooms points).cashPrice) := by
  constructor
  · intro table company category days points htab
    by_cases hg : company = "" ∨ days ≤ 0
    · simp [carRentalCosts, hg]
    · have hd : 0 < days := by
        push_neg at hg
        exact hg.2
      simp only [carRentalCosts, if_neg hg]
      cases hfind : table.find? (fun r => r.company == company) with
      | none => norm_num
      | some rental =>
        obtain ⟨hbp, he, hm, hl, hs⟩ :=
          htab rental (List.mem_of_find?_eq_some hfind)
        exact round2_nonneg (carRawCashPrice_nonneg category hd hbp
          (categoryMultiplier_nonneg category he hm hl hs))
  · intro prop? month nights rooms points hprop hr
    cases prop? with
    | none => norm_num [hotelCosts]
    | some prop =>
      exact calculateCashPrice_nonneg prop month nights rooms
        (hprop prop rfl) hr

theorem cash_price_nonneg_amended_witness :
    (∀ r ∈ [hertz], 0 ≤ r.basePrice ∧ 0 ≤ r.economy ∧ 0 ≤ r.midsize ∧
      0 ≤ r.luxury ∧ 0 ≤ r.suv) ∧
    0 ≤ (carRentalCosts [hertz] "Hertz" "economy" 5 2000).cashPrice :=
  ⟨by norm_num [hertz],
   cash_price_nonneg_amended.1 [hertz] "Hertz" "economy" 5 2000
     (by norm_num [hertz])⟩

/-- C4 counterexample: the rounding applied after the min breaks both
caps as literally stated: with a balance of one point the savings round
up to $0.01 > 1 * 0.008, and with a raw cash price of exactly $100.01
the savings round to $50.01 > 100.01 * 0.5. -/
theorem car_points_cap_counterexample :
    (0 : ℚ) ≤ 1 ∧ (0 : ℚ) < 1 ∧
    ¬ ((carRentalCosts [hertz] "Hertz" "economy" 1 1).pointsSavings
        ≤ 1 * 0.008) ∧
    ¬ ((carRentalCosts [acme] "Acme" "economy" 1 1000000).pointsSavings
        ≤ (carRentalCosts [acme] "Acme" "economy" 1 1000000).cashPrice
          * 0.5) := by
  have h1 : carRentalCosts [hertz] "Hertz" "economy" 1 1 = ⟨125.37, 0.01⟩ := by
    simp only [carRentalCosts, carRawCashPrice, categoryMultiplier,
      categoryLookup, List.find?, hertz, String.reduceEq, String.reduceBEq,
      round2, CostResult.mk.injEq]
    norm_num [min_def, Int.floor_eq_iff]
  have h2 : carRentalCosts [acme] "Acme" "economy" 1 1000000
      = ⟨100.01, 50.01⟩ := by
    simp only [carRentalCosts, carRawCashPrice, categoryMultiplier,
      categoryLookup, List.find?, acme, String.reduceEq, String.reduceBEq,
      round2, CostResult.mk.injEq]
    norm_num [min_def, Int.floor_eq_iff]
  rw [h1, h2]
  norm_num

/-- C4 (amended): the car-rental caps hold up to the slack the final
rounding of `pointsSavings` (and of `cashPrice`) can introduce:
`pointsSavings ≤ cashPrice * 0.5 + 3/400` and
`pointsSavings ≤ points * 0.008 + 1/200`. -/
theorem car_points_cap_amended (table : List CarRental)
    (company category : String) (days points : ℚ) (hp : 0 ≤ points) :
    (carRentalCosts table company category days points).pointsSavings
      ≤ (carRentalCosts table company category days points).cashPrice * 0.5
        + 3 / 400 ∧
    (carRentalCosts table company category days points).pointsSavings
      ≤ points * 0.008 + 1 / 200 := by
  have hps : (0 : ℚ) ≤ points * 0.008 := by positivity
  by_cases hg : company = "" ∨ days ≤ 0
  · simp only [carRentalCosts, if_pos hg]
    constructor
    · norm_num
    · dsimp only
      linarith
  · simp only [carRentalCosts, if_neg hg]
    cases hfind : table.find? (fun r => r.company == company) with
    | none =>
      constructor
      · norm_num
      · dsimp only
        linarith
    | some rental =>
      have h1 := round2_le_add_half_cent
        (min (points * 0.008) (carRawCashPrice rental category days * 0.5))
      have h2 := sub_half_cent_lt_round2 (carRawCashPrice rental category days)
      have h3 := min_le_right (points * 0.008)
        (carRawCashPrice rental category days * 0.5)
      have h4 := min_le_left (points * 0.008)
        (carRawCashPrice rental category days * 0.5)
      constructor
      · dsimp only
        linarith
      · dsimp only
        linarith

theorem car_points_cap_amended_witness :
    (0 : ℚ) ≤ 4000 ∧
    ((carRentalCosts [hertz] "Hertz" "economy" 2 4000).pointsSavings
      ≤ (carRentalCosts [hertz] "Hertz" "economy" 2 4000).cashPrice * 0.5
        + 3 / 400 ∧
     (carRentalCosts [hertz] "Hertz" "economy" 2 4000).pointsSavings
      ≤ 4000 * 0.008 + 1 / 200) :=
  ⟨by norm_num,
   car_points_cap_amended [hertz] "Hertz" "economy" 2 4000 (by norm_num)⟩

/-- C9 counterexample: the car engine does not round `cashPrice` before
computing `pointsSavings`: at a raw price of 125.36625 the code returns
round2(125.36625 * 0.5) = 62.68, while rounding first would give
round2(125.37 * 0.5) = 62.69. -/
theorem car_rounding_order_counterexample :
    (carRentalCosts [hertz] "Hertz" "economy" 1 100000).pointsSavings
      ≠ round2 (min (100000 * 0.008)
          ((carRentalCosts [hertz] "Hertz" "economy" 1 100000).cashPrice
            * 0.5)) := by
  have h : carRentalCosts [hertz] "Hertz" "economy" 1 100000
      = ⟨125.37, 62.68⟩ := by
    simp only [carRentalCosts, carRawCashPrice, categoryMultiplier,
      categoryLookup, List.find?, hertz, String.reduceEq, String.reduceBEq,
      round2, CostResult.mk.injEq]
    norm_num [min_def, Int.floor_eq_iff]
  rw [h]
  norm_num [round2, min_def, Int.floor_eq_iff]

/-- C9 (amended): neither engine rounds the cash price before the
savings computation: the car engine takes the min against the raw,
unrounded cash price and rounds only the result, and the hotel engine
applies no rounding anywhere. -/
theorem rounding_order_amended :
    (∀ (table : List CarRental) (company category : String)
        (days points : ℚ) (rental : CarRental),
        company ≠ "" → 0 < days →
        table.find? (fun r => r.company == company) = some rental →
        (carRentalCosts table company category days points).pointsSavings
          = round2 (min (points * 0.008)
              (carRawCashPrice rental category days * 0.5))) ∧
    (∀ (prop : HotelProperty) (month nights : ℤ) (rooms : ℚ)
        (points : Option ℚ),
        (hotelCosts (some prop) month nights rooms points).pointsSavings
          = min (points.getD 0 * 0.005)
              (calculateCashPrice prop month nights rooms * 0.8)) := by
  constructor
  · intro table company category days points rental hc hd hfind
    have hg : ¬ (company = "" ∨ days ≤ 0) := by
      push_neg
      exact ⟨hc, hd⟩
    simp only [carRentalCosts, if_neg hg, hfind]
  · intro prop month nights rooms points
    rfl

theorem rounding_order_amended_witness :
    ("Hertz" ≠ "") ∧ (0 : ℚ) < 1 ∧
    (List.find? (fun r => r.company == "Hertz") [hertz] = some hertz) ∧
    (carRentalCosts [hertz] "Hertz" "economy" 1 100000).pointsSavings
      = round2 (min (100000 * 0.008)
          (carRawCashPrice hertz "economy" 1 * 0.5)) :=
  ⟨by decide, by norm_num, by simp [List.find?, hertz],
   rounding_order_amended.1 [hertz] "Hertz" "economy" 1 100000 hertz
     (by decide) (by norm_num) (by simp [List.find?, hertz])⟩

end HiltonCalc
